import Mathlib

/-!
Shallow embedding of `src/matcher.py` (function `match_products_to_customers`
and its helper `_norm_category`) from the customer-email-app-flask repository.

Conventions of the embedding:
* A raw table cell that may be missing or non-numeric is a `RawValue`
  (`na` models a pandas NA/None/NaN cell, `str` a text cell, `num` a numeric
  cell).  Numeric values are modelled with `ℚ` instead of IEEE floats; none of
  the verified properties depends on rounding.
* `pd.to_numeric(_, errors := coerce)` and Python `float(...)` over strings are
  modelled by `parseDecimal`, a parser for the plain decimal fragment
  (optional sign, digits, optional fractional part).  Strings outside this
  fragment (exponents, infinities, thousands separators) coerce to `none`,
  matching the libraries on every input used below.
* `DataFrame.sort_values(by price_num, ascending, na_position := last)` is
  modelled by a stable insertion sort (`sortByPrice`).  pandas' default sort
  kind is numpy's unstable introsort, which guarantees the same multiset and
  the same ascending/absent-last key order but not the order of tied rows;
  every property proved below except the tie-order clause of C2 is invariant
  under permutation of tied rows, and the tie-order discrepancy is recorded
  with claim C2.
* `Series.str.contains(token, na := False)` is modelled by literal substring
  containment of the token in the lower-cased name (`listContainsSub`), the
  semantics the design documents.  The actual pandas call interprets the token
  as a regular expression (`regex := True` default); that discrepancy is
  recorded with claims C3 and C4 and only shows on tokens containing regex
  metacharacters.
-/

/-- A raw cell value of one of the two input tables: missing (pandas NA/None/
NaN), text, or numeric. -/
inductive RawValue where
  | na : RawValue
  | str : String → RawValue
  | num : ℚ → RawValue
deriving DecidableEq

/-- Python `str.lower()` (ASCII fragment): lower-case every character. -/
def pyLower (s : String) : String :=
  ⟨s.data.map Char.toLower⟩

/-- Python `str.strip()`: drop whitespace from both ends. -/
def pyStrip (s : String) : String :=
  ⟨((s.data.dropWhile Char.isWhitespace).reverse.dropWhile Char.isWhitespace).reverse⟩

/-- Value of a non-empty digit string, most significant first. -/
def digitsVal : List Char → Nat → Nat
  | [], acc => acc
  | c :: cs, acc => digitsVal cs (acc * 10 + (c.toNat - 48))

/-- Parser for the plain decimal fragment of Python numeric-string coercion
(`float(s)` / `pd.to_numeric`): surrounding whitespace, optional sign, digits,
optional dot and fractional digits.  Anything else yields `none`, as the
libraries raise / coerce to NaN there. -/
def parseDecimal (s : String) : Option ℚ :=
  let cs := (pyStrip s).data
  let signed : Bool × List Char :=
    match cs with
    | '-' :: rest => (true, rest)
    | '+' :: rest => (false, rest)
    | _ => (false, cs)
  let intPart := signed.2.takeWhile Char.isDigit
  let rest := signed.2.dropWhile Char.isDigit
  let mk : Nat → Nat → Nat → ℚ := fun iv fv k =>
    let n : Int := (iv * 10 ^ k + fv : Nat)
    mkRat (if signed.1 then -n else n) (10 ^ k)
  match rest with
  | [] =>
      if intPart.isEmpty then none
      else some (mk (digitsVal intPart 0) 0 0)
  | '.' :: fracRest =>
      let fracPart := fracRest.takeWhile Char.isDigit
      let rest2 := fracRest.dropWhile Char.isDigit
      if rest2.isEmpty && !(intPart.isEmpty && fracPart.isEmpty) then
        some (mk (digitsVal intPart 0) (digitsVal fracPart 0) fracPart.length)
      else none
  | _ => none

/-- `pd.to_numeric(val, errors := coerce)` on one cell: a missing cell and an
unparseable string coerce to absent, a numeric cell passes through
(matcher.py line 9, building the `price_num` column). -/
def pd_to_numeric : RawValue → Option ℚ
  | .na => none
  | .num q => q
  | .str s => parseDecimal s

/-- `_norm_category` (matcher.py lines 3-4):
`str(val).strip().lower() if pd.notna(val) else None`.
A missing value gives `none`; a text value is trimmed and lower-cased — note
that an empty or whitespace-only string gives `some ""`, not `none`. -/
def norm_category : Option String → Option String
  | none => none
  | some s => some (pyLower (pyStrip s))

/-- The budget normalization of matcher.py lines 16-21: `None` unless the cell
is present (`pd.notna`) and coerces via `float(...)`; the bare `except` turns
an unparseable string into `None`. -/
def norm_budget : RawValue → Option ℚ
  | .na => none
  | .num q => q
  | .str s => parseDecimal s

/-- One row of the products table handed to `match_products_to_customers`:
`name` is required (upstream contract), the rest are the optional columns. -/
structure Product where
  name : String
  category : Option String
  price : RawValue
  sku : Option String
  url : Option String
deriving DecidableEq

/-- One row of the internal copy `p` after the two derived columns
`category_norm` and `price_num` are added (matcher.py lines 7-9); the original
raw columns are carried unchanged. -/
structure NProduct where
  name : String
  category : Option String
  price : RawValue
  sku : Option String
  url : Option String
  category_norm : Option String
  price_num : Option ℚ
deriving DecidableEq

/-- Lines 7-9: the copied row with its derived columns. -/
def normalizeRow (p : Product) : NProduct :=
  { name := p.name
    category := p.category
    price := p.price
    sku := p.sku
    url := p.url
    category_norm := norm_category p.category
    price_num := pd_to_numeric p.price }

/-- One row of the customers table: `email` and `name` are required by the
upstream contract; the two optional fields are the only ones the matcher
reads (via `cdict.get`). -/
structure Customer where
  email : String
  name : String
  preferred_category : Option String
  max_budget : RawValue
deriving DecidableEq

/-- One emitted recommendation record (matcher.py lines 36-42): raw `name`,
raw `category`, normalized `price_num` as `price`, raw `sku` and `url`. -/
structure Recommendation where
  name : String
  category : Option String
  price : Option ℚ
  sku : Option String
  url : Option String
deriving DecidableEq

/-- One output row (matcher.py line 43): the customer's dict paired with its
recommendation list. -/
structure MatchResult where
  customer : Customer
  recommendations : List Recommendation
deriving DecidableEq

/-- Does `hay` start with `pat`? -/
def listStartsWith : List Char → List Char → Bool
  | _, [] => true
  | [], _ :: _ => false
  | h :: hs, p :: ps => h == p && listStartsWith hs ps

/-- Literal substring containment of `pat` in `hay`. -/
def listContainsSub : List Char → List Char → Bool
  | [], pat => pat.isEmpty
  | h :: hs, pat => listStartsWith (h :: hs) pat || listContainsSub hs pat

/-- The preference predicate of matcher.py lines 26-27:
normalized category equals the token, or the lower-cased name contains the
token.  The containment is modelled literally (see the file header: the
pandas call treats the token as a regex, recorded with C3/C4). -/
def pref_ok (t : String) (r : NProduct) : Bool :=
  decide (r.category_norm = some t) || listContainsSub (pyLower r.name).data t.data

/-- The preference filter (matcher.py lines 25-28). -/
def prefFilter (t : String) (cand : List NProduct) : List NProduct :=
  cand.filter (pref_ok t)

/-- The budget predicate of matcher.py line 32: absent price always passes,
otherwise inclusive comparison against the budget. -/
def budget_ok (b : ℚ) (r : NProduct) : Bool :=
  match r.price_num with
  | none => true
  | some q => decide (q ≤ b)

/-- The budget filter (matcher.py lines 31-32). -/
def budgetFilter (b : ℚ) (cand : List NProduct) : List NProduct :=
  cand.filter (budget_ok b)

/-- Sort key order of `sort_values(by price_num, ascending, na_position :=
last)`: absent prices after all numeric prices, numeric prices ascending. -/
def priceLE (a b : Option ℚ) : Bool :=
  match a, b with
  | none, none => true
  | none, some _ => false
  | some _, none => true
  | some x, some y => decide (x ≤ y)

/-- Stable insertion of a row into a price-sorted list: a row goes before the
first position it compares `priceLE` to, hence before no earlier-inserted
tie. -/
def insertPrice (r : NProduct) : List NProduct → List NProduct
  | [] => [r]
  | x :: xs => if priceLE r.price_num x.price_num then r :: x :: xs else x :: insertPrice r xs

/-- The one-time catalogue sort of matcher.py line 10, as a stable insertion
sort on the `price_num` key (see the file header on pandas' unstable default
sort kind). -/
def sortByPrice (l : List NProduct) : List NProduct :=
  l.foldr insertPrice []

/-- Lines 23-30: the candidate set after the preference step.  `if preferred:`
is Python truthiness, so a missing preference and an empty token both skip the
filter; an empty filter result falls back to the full pre-sorted catalogue. -/
def candAfterPref (ps : List NProduct) (c : Customer) : List NProduct :=
  match norm_category c.preferred_category with
  | none => ps
  | some t =>
      if t = "" then ps
      else if prefFilter t ps = [] then ps else prefFilter t ps

/-- Lines 31-32: the budget filter is applied only when a numeric budget is
present. -/
def applyBudget (b : Option ℚ) (cand : List NProduct) : List NProduct :=
  match b with
  | none => cand
  | some v => budgetFilter v cand

/-- The final candidate set for one customer: preference step (with fallback)
then budget step. -/
def finalCandidates (ps : List NProduct) (c : Customer) : List NProduct :=
  applyBudget (norm_budget c.max_budget) (candAfterPref ps c)

/-- Lines 36-42: projection of a candidate row into the emitted record — raw
`name`, raw `category` (not `category_norm`), normalized `price_num` as
`price`, raw `sku`, raw `url`. -/
def toRec (r : NProduct) : Recommendation :=
  { name := r.name
    category := r.category
    price := r.price_num
    sku := r.sku
    url := r.url }

/-- Lines 34-42: take the head of the final candidate set and project. -/
def recsFor (ps : List NProduct) (max_recs : Nat) (c : Customer) : List Recommendation :=
  ((finalCandidates ps c).take max_recs).map toRec

/-- `match_products_to_customers` (matcher.py lines 6-44): normalize a copy of
the catalogue, sort it once, then map the per-customer walk over the customer
rows in order. -/
def match_products_to_customers (products : List Product) (customers : List Customer)
    (max_recs : Nat) : List MatchResult :=
  let p := products.map normalizeRow
  let p_sorted := sortByPrice p
  customers.map (fun c => { customer := c, recommendations := recsFor p_sorted max_recs c })

/-- The two caller-owned tables, for stating the frame property: the source
copies the products table (line 7, `products_df.copy()`) before adding the
derived columns, and only ever reads the customers table (line 13/14,
`iterrows` and `to_dict`). -/
structure MatcherState where
  products_df : List Product
  customers_df : List Customer
deriving DecidableEq

/-- State-threading form of the call: every write of the source targets the
internal copy `p`, so the caller's two tables come back untouched. -/
def match_run (st : MatcherState) (max_recs : Nat) : List MatchResult × MatcherState :=
  let p := st.products_df.map normalizeRow
  let p_sorted := sortByPrice p
  let rows := st.customers_df.map
    (fun c => { customer := c, recommendations := recsFor p_sorted max_recs c })
  (rows, st)

/-- Sample catalogue row (spec scenario 1). -/
def prodPen : Product := ⟨"Pen", some "Stationery", .num 5, none, none⟩

/-- Sample catalogue row (spec scenario 1). -/
def prodNotebook : Product := ⟨"Notebook", some "Stationery", .num 12, none, none⟩

/-- Sample catalogue row (spec scenario 1), price 8.50. -/
def prodMug : Product := ⟨"Mug", some "Kitchen", .num (mkRat 17 2), none, none⟩

/-- Sample customer with a matched preference and a budget (spec scenario 1). -/
def custAmy : Customer := ⟨"amy@example.com", "Amy", some "Stationery", .num 10⟩

/-- Sample customer with an unmatched preference and no budget (spec scenario 2). -/
def custBen : Customer := ⟨"ben@example.com", "Ben", some "Electronics", .na⟩

/-- Sample catalogue row whose price exceeds a small budget. -/
def prodGadget : Product := ⟨"Gadget", none, .num 100, none, none⟩

/-- Sample customer with no preference and a budget of 5. -/
def custAnn : Customer := ⟨"ann@example.com", "Ann", none, .num 5⟩

/-- Sample catalogue row with an unnormalized raw category and a textual
price. -/
def prodThing : Product := ⟨"Thing", some " KITCHEN ", .str "12.50", some "SKU1", some "https://x"⟩

/-- Sample customer with neither preference nor budget. -/
def custCal : Customer := ⟨"cal@example.com", "Cal", none, .na⟩

/-- The order relation the catalogue is sorted by, read off the `price_num`
column. -/
def priceRel (a b : NProduct) : Prop :=
  priceLE a.price_num b.price_num = true

instance : DecidableRel priceRel := fun _ _ => inferInstanceAs (Decidable (_ = true))


theorem insertPrice_perm (r : NProduct) : ∀ l : List NProduct, List.Perm (insertPrice r l) (r :: l)
  | [] => List.Perm.refl _
  | x :: xs => by
      unfold insertPrice
      by_cases h : priceLE r.price_num x.price_num = true
      · simp [h]
      · simp only [h, if_neg, ite_false]
        exact ((insertPrice_perm r xs).cons x).trans (List.Perm.swap r x xs)

theorem sortByPrice_perm : ∀ l : List NProduct, List.Perm (sortByPrice l) l
  | [] => List.Perm.refl _
  | x :: xs => by
      have h1 : sortByPrice (x :: xs) = insertPrice x (sortByPrice xs) := rfl
      rw [h1]
      exact (insertPrice_perm x (sortByPrice xs)).trans ((sortByPrice_perm xs).cons x)

theorem mem_sortByPrice {x : NProduct} {l : List NProduct} : x ∈ sortByPrice l ↔ x ∈ l :=
  (sortByPrice_perm l).mem_iff

theorem sortByPrice_eq_nil_iff {l : List NProduct} : sortByPrice l = [] ↔ l = [] := by
  constructor
  · intro h
    have hl := (sortByPrice_perm l).length_eq
    rw [h] at hl
    exact List.length_eq_zero.mp hl.symm
  · intro h
    subst h
    rfl

theorem priceLE_total (a b : Option ℚ) : priceLE a b = true ∨ priceLE b a = true := by
  cases a <;> cases b <;> simp [priceLE]
  exact le_total _ _

theorem priceLE_trans {a b c : Option ℚ} (h1 : priceLE a b = true) (h2 : priceLE b c = true) :
    priceLE a c = true := by
  cases a <;> cases b <;> cases c <;> simp [priceLE] at *
  exact le_trans h1 h2

theorem mem_insertPrice {y r : NProduct} {l : List NProduct} :
    y ∈ insertPrice r l ↔ y = r ∨ y ∈ l := by
  rw [(insertPrice_perm r l).mem_iff]
  simp

theorem pairwise_insertPrice (r : NProduct) :
    ∀ {l : List NProduct}, l.Pairwise priceRel → (insertPrice r l).Pairwise priceRel
  | [], _ => by simp [insertPrice]
  | x :: xs, h => by
      obtain ⟨hx, hxs⟩ := List.pairwise_cons.mp h
      unfold insertPrice
      by_cases hle : priceLE r.price_num x.price_num = true
      · simp only [hle, ite_true]
        refine List.pairwise_cons.mpr ⟨?_, h⟩
        intro y hy
        rcases List.mem_cons.mp hy with rfl | hy2
        · exact hle
        · exact priceLE_trans hle (hx y hy2)
      · simp only [hle, ite_false]
        refine List.pairwise_cons.mpr ⟨?_, pairwise_insertPrice r hxs⟩
        intro y hy
        rcases mem_insertPrice.mp hy with hEq | hy2
        · rw [hEq]
          rcases priceLE_total r.price_num x.price_num with ht | ht
          · exact absurd ht hle
          · exact ht
        · exact hx y hy2

theorem sortByPrice_pairwise : ∀ l : List NProduct, (sortByPrice l).Pairwise priceRel
  | [] => List.Pairwise.nil
  | x :: xs => by
      have h1 : sortByPrice (x :: xs) = insertPrice x (sortByPrice xs) := rfl
      rw [h1]
      exact pairwise_insertPrice x (sortByPrice_pairwise xs)

theorem listStartsWith_iff : ∀ (hay pat : List Char),
    listStartsWith hay pat = true ↔ ∃ post, hay = pat ++ post := by
  intro hay pat
  induction pat generalizing hay with
  | nil => simp [listStartsWith]
  | cons p ps ih =>
      cases hay with
      | nil => simp [listStartsWith]
      | cons h hs =>
          simp only [listStartsWith, Bool.and_eq_true, beq_iff_eq, ih, List.cons_append,
            List.cons.injEq]
          constructor
          · rintro ⟨rfl, post, rfl⟩
            exact ⟨post, rfl, rfl⟩
          · rintro ⟨post, rfl, rfl⟩
            exact ⟨rfl, post, rfl⟩

theorem listContainsSub_iff : ∀ (hay pat : List Char),
    listContainsSub hay pat = true ↔ ∃ pre post, hay = pre ++ pat ++ post := by
  intro hay
  induction hay with
  | nil =>
      intro pat
      simp only [listContainsSub, List.isEmpty_iff]
      constructor
      · rintro rfl
        exact ⟨[], [], rfl⟩
      · rintro ⟨pre, post, h⟩
        rcases List.append_eq_nil.mp h.symm with ⟨h1, h2⟩
        exact (List.append_eq_nil.mp h1).2
  | cons h hs ih =>
      intro pat
      simp only [listContainsSub, Bool.or_eq_true, listStartsWith_iff, ih]
      constructor
      · rintro (⟨post, he⟩ | ⟨pre, post, he⟩)
        · exact ⟨[], post, by simp [he]⟩
        · exact ⟨h :: pre, post, by simp [he]⟩
      · rintro ⟨pre, post, he⟩
        cases pre with
        | nil => exact Or.inl ⟨post, by simpa using he⟩
        | cons p pre2 =>
            rcases List.cons.injEq .. ▸ he with he2
            simp only [List.cons_append, List.cons.injEq] at he2
            exact Or.inr ⟨pre2, post, he2.2⟩

theorem mem_candAfterPref {ps : List NProduct} {c : Customer} {x : NProduct}
    (h : x ∈ candAfterPref ps c) : x ∈ ps := by
  unfold candAfterPref at h
  split at h
  · exact h
  · split at h
    · exact h
    · split at h
      · exact h
      · exact (List.mem_filter.mp h).1

theorem candAfterPref_ne_nil {ps : List NProduct} {c : Customer} (h : ps ≠ []) :
    candAfterPref ps c ≠ [] := by
  unfold candAfterPref
  split
  · exact h
  · split
    · exact h
    · split
      · exact h
      · next hne => exact hne

theorem mem_finalCandidates {ps : List NProduct} {c : Customer} {x : NProduct}
    (h : x ∈ finalCandidates ps c) : x ∈ candAfterPref ps c := by
  unfold finalCandidates applyBudget at h
  split at h
  · exact h
  · exact (List.mem_filter.mp h).1

theorem match_row_mem {products : List Product} {customers : List Customer} {n : Nat}
    {row : MatchResult} :
    row ∈ match_products_to_customers products customers n ↔
      ∃ c, c ∈ customers ∧
        row = ⟨c, recsFor (sortByPrice (products.map normalizeRow)) n c⟩ := by
  simp only [match_products_to_customers, List.mem_map]
  constructor
  · rintro ⟨c, hc, rfl⟩
    exact ⟨c, hc, rfl⟩
  · rintro ⟨c, hc, rfl⟩
    exact ⟨c, hc, rfl⟩

/-- Claim C1 counterexample: a one-product catalogue priced 100 and a customer
with budget 5 and no preference yield an empty recommendation list even though
the catalogue is non-empty — the budget filter has no fallback, so an empty
list does not require an empty catalogue. -/
theorem budget_filter_can_empty_recs :
    ([prodGadget] : List Product) ≠ [] ∧
      (match_products_to_customers [prodGadget] [custAnn] 3).map
        (fun row => row.recommendations) = [[]] :=
  ⟨by decide, by decide⟩

/-- Claim C1 (amended): an empty recommendation list for a customer is possible
only if the catalogue is empty or the customer's normalized budget is present
and the budget filter eliminates every candidate left after the preference
step; the preference filter alone (thanks to its fallback) never empties the
candidates of a non-empty catalogue. -/
theorem recs_empty_only_if_catalogue_empty_or_budget_excludes
    (products : List Product) (customers : List Customer) (n : Nat) (row : MatchResult)
    (hn : 0 < n) (hrow : row ∈ match_products_to_customers products customers n)
    (hempty : row.recommendations = []) :
    products = [] ∨
      ∃ b, norm_budget row.customer.max_budget = some b ∧
        budgetFilter b (candAfterPref (sortByPrice (products.map normalizeRow))
          row.customer) = [] := by
  obtain ⟨c, hc, rfl⟩ := match_row_mem.mp hrow
  by_cases hp : products = []
  · exact Or.inl hp
  · right
    have hfin : finalCandidates (sortByPrice (products.map normalizeRow)) c = [] := by
      have h1 : ((finalCandidates (sortByPrice (products.map normalizeRow)) c).take n).map
          toRec = [] := hempty
      have h2 := List.map_eq_nil_iff.mp h1
      rcases List.take_eq_nil_iff.mp h2 with h3 | h3
      · exact absurd h3 (Nat.pos_iff_ne_zero.mp hn)
      · exact h3
    have hps : sortByPrice (products.map normalizeRow) ≠ [] := by
      rw [Ne, sortByPrice_eq_nil_iff, List.map_eq_nil_iff]
      exact hp
    have hcand := candAfterPref_ne_nil (c := c) hps
    cases hb : norm_budget c.max_budget with
    | none =>
        unfold finalCandidates at hfin
        rw [hb] at hfin
        exact absurd (by simpa [applyBudget] using hfin) hcand
    | some b =>
        refine ⟨b, rfl, ?_⟩
        unfold finalCandidates at hfin
        rw [hb] at hfin
        simpa [applyBudget] using hfin

/-- Witness for the amended C1 theorem at the concrete budget-excluded
input. -/
theorem recs_empty_only_if_catalogue_empty_or_budget_excludes_witness :
    ([prodGadget] : List Product) = [] ∨
      ∃ b, norm_budget custAnn.max_budget = some b ∧
        budgetFilter b (candAfterPref (sortByPrice ([prodGadget].map normalizeRow))
          custAnn) = [] :=
  recs_empty_only_if_catalogue_empty_or_budget_excludes [prodGadget] [custAnn] 3
    ⟨custAnn, []⟩ (by decide) (by decide) (by decide)

/-- Claim C2 (the ascending-order half, proved against the stable model of the
one-time sort): every emitted recommendation list is non-decreasing in price
with absent prices last.  The tie-order half of the claim is not guaranteed by
the source, which relies on the default unstable sort kind; see the results
record. -/
theorem recommendations_price_ascending
    (products : List Product) (customers : List Customer) (n : Nat) (row : MatchResult)
    (hrow : row ∈ match_products_to_customers products customers n) :
    row.recommendations.Pairwise (fun a b => priceLE a.price b.price = true) := by
  obtain ⟨c, hc, rfl⟩ := match_row_mem.mp hrow
  have hsorted : (sortByPrice (products.map normalizeRow)).Pairwise priceRel :=
    sortByPrice_pairwise _
  have hcand : (candAfterPref (sortByPrice (products.map normalizeRow)) c).Pairwise
      priceRel := by
    unfold candAfterPref
    split
    · exact hsorted
    · split
      · exact hsorted
      · split
        · exact hsorted
        · exact hsorted.sublist (List.filter_sublist _)
  have hfin : (finalCandidates (sortByPrice (products.map normalizeRow)) c).Pairwise
      priceRel := by
    unfold finalCandidates applyBudget
    split
    · exact hcand
    · exact hcand.sublist (List.filter_sublist _)
  have htake := hfin.sublist (List.take_sublist n _)
  show (((finalCandidates (sortByPrice (products.map normalizeRow)) c).take n).map
    toRec).Pairwise _
  rw [List.pairwise_map]
  exact htake

/-- Witness for the C2 theorem: spec scenario 2 (unmatched preference, no
budget) produces Pen 5, Mug 8.5, Notebook 12 in ascending price order. -/
theorem recommendations_price_ascending_witness :
    (MatchResult.mk custBen
      [⟨"Pen", some "Stationery", some 5, none, none⟩,
       ⟨"Mug", some "Kitchen", some (mkRat 17 2), none, none⟩,
       ⟨"Notebook", some "Stationery", some 12, none, none⟩]).recommendations.Pairwise
      (fun a b => priceLE a.price b.price = true) :=
  recommendations_price_ascending [prodPen, prodNotebook, prodMug] [custBen] 3 _ (by decide)

/-- Claim C3 (the budget half of the fail-soft policy, which the code keeps):
a `max_budget` string that does not parse as a number behaves exactly like a
missing budget — no error, no constraint.  The preference half of the claim
fails on the source (pandas interprets the token as a regular expression and
raises on invalid patterns); see the results record. -/
theorem budget_failsoft_unparseable
    (ps : List NProduct) (n : Nat) (c : Customer) (s : String)
    (h : parseDecimal s = none) :
    recsFor ps n { c with max_budget := .str s } =
      recsFor ps n { c with max_budget := .na } := by
  simp [recsFor, finalCandidates, norm_budget, candAfterPref, h]

/-- Witness for the C3 budget fail-soft theorem at the unparseable budget
string of spec scenario 3. -/
theorem budget_failsoft_unparseable_witness :
    parseDecimal "N/A" = none ∧
      recsFor (sortByPrice ([prodPen].map normalizeRow)) 3
          { custAmy with max_budget := .str "N/A" } =
        recsFor (sortByPrice ([prodPen].map normalizeRow)) 3
          { custAmy with max_budget := .na } :=
  ⟨by decide,
    budget_failsoft_unparseable (sortByPrice ([prodPen].map normalizeRow)) 3 custAmy "N/A"
      (by decide)⟩

/-- Claim C4 (against the literal-substring semantics of the embedding, which
is the behaviour the design documents): the preference filter keeps exactly
the rows whose normalized category equals the token or whose lower-cased name
contains the token as a literal substring — an OR of the two predicates.  The
source itself deviates by treating the token as a regular expression; see the
results record. -/
theorem prefFilter_mem_iff_substring (t : String) (cand : List NProduct) (r : NProduct) :
    r ∈ prefFilter t cand ↔
      r ∈ cand ∧ (r.category_norm = some t ∨
        ∃ pre post, (pyLower r.name).data = pre ++ t.data ++ post) := by
  simp [prefFilter, List.mem_filter, pref_ok, listContainsSub_iff]

/-- Claim C5: when a present, non-empty preference token matches nothing in
the pre-sorted catalogue, the candidate set reverts to the full pre-sorted
catalogue, and the customer's recommendations are the (budget-filtered) head
of that full catalogue. -/
theorem pref_fallback_reverts_to_catalogue
    (products : List Product) (n : Nat) (c : Customer) (t : String)
    (ht : norm_category c.preferred_category = some t) (ht2 : t ≠ "")
    (hempty : prefFilter t (sortByPrice (products.map normalizeRow)) = []) :
    recsFor (sortByPrice (products.map normalizeRow)) n c =
      ((applyBudget (norm_budget c.max_budget)
        (sortByPrice (products.map normalizeRow))).take n).map toRec := by
  simp [recsFor, finalCandidates, candAfterPref, ht, ht2, hempty]

/-- Witness for the C5 fallback theorem: Ben prefers Electronics, the
one-product Pen catalogue matches nothing, and he still gets the generic
recommendations. -/
theorem pref_fallback_reverts_to_catalogue_witness :
    norm_category custBen.preferred_category = some "electronics" ∧
    ("electronics" : String) ≠ "" ∧
    prefFilter "electronics" (sortByPrice ([prodPen].map normalizeRow)) = [] ∧
    recsFor (sortByPrice ([prodPen].map normalizeRow)) 2 custBen =
      ((applyBudget (norm_budget custBen.max_budget)
        (sortByPrice ([prodPen].map normalizeRow))).take 2).map toRec :=
  ⟨by decide, by decide, by decide,
    pref_fallback_reverts_to_catalogue [prodPen] 2 custBen "electronics"
      (by decide) (by decide) (by decide)⟩

/-- Claim C6: the budget filter keeps exactly the candidates whose normalized
price is absent or less than or equal to the budget — the boundary is
inclusive, and an absent price passes for every budget value. -/
theorem budgetFilter_mem_iff (b : ℚ) (cand : List NProduct) (r : NProduct) :
    r ∈ budgetFilter b cand ↔
      r ∈ cand ∧ (r.price_num = none ∨ ∃ q, r.price_num = some q ∧ q ≤ b) := by
  simp only [budgetFilter, List.mem_filter]
  exact and_congr_right fun _ => by
    cases hp : r.price_num <;> simp [budget_ok, hp]

/-- Claim C7: every recommendation list is the projected `max_recs`-prefix of
the final candidate set, so its length is the minimum of `max_recs` and the
final candidate count, in particular at most `max_recs`. -/
theorem recs_length_min_cap
    (products : List Product) (customers : List Customer) (n : Nat) (row : MatchResult)
    (hrow : row ∈ match_products_to_customers products customers n) :
    row.recommendations.length ≤ n ∧
    row.recommendations.length =
      min n (finalCandidates (sortByPrice (products.map normalizeRow)) row.customer).length ∧
    row.recommendations =
      ((finalCandidates (sortByPrice (products.map normalizeRow)) row.customer).take n).map
        toRec := by
  obtain ⟨c, hc, rfl⟩ := match_row_mem.mp hrow
  have hlen : (recsFor (sortByPrice (products.map normalizeRow)) n c).length =
      min n (finalCandidates (sortByPrice (products.map normalizeRow)) c).length := by
    simp [recsFor]
  exact ⟨by rw [hlen]; exact Nat.min_le_left _ _, hlen, rfl⟩

/-- Witness for the C7 cap theorem: spec scenario 6 — `max_recs = 1` with a
three-product catalogue returns exactly the one cheapest product. -/
theorem recs_length_min_cap_witness :
    (MatchResult.mk custBen
      [⟨"Pen", some "Stationery", some 5, none, none⟩]).recommendations.length ≤ 1 ∧
    (MatchResult.mk custBen
      [⟨"Pen", some "Stationery", some 5, none, none⟩]).recommendations.length =
      min 1 (finalCandidates (sortByPrice ([prodPen, prodNotebook, prodMug].map normalizeRow))
        (MatchResult.mk custBen
          [⟨"Pen", some "Stationery", some 5, none, none⟩]).customer).length ∧
    (MatchResult.mk custBen
      [⟨"Pen", some "Stationery", some 5, none, none⟩]).recommendations =
      ((finalCandidates (sortByPrice ([prodPen, prodNotebook, prodMug].map normalizeRow))
        (MatchResult.mk custBen
          [⟨"Pen", some "Stationery", some 5, none, none⟩]).customer).take 1).map toRec :=
  recs_length_min_cap [prodPen, prodNotebook, prodMug] [custBen] 1 _ (by decide)

/-- Claim C8 counterexample: `_norm_category` does not return the absent value
on empty or whitespace-only strings — it returns the empty token, because
`pd.notna("")` is true and `"".strip().lower()` is `""`. -/
theorem norm_category_empty_not_absent :
    norm_category (some "") = some "" ∧ norm_category (some "   ") = some "" ∧
      norm_category (some "") ≠ none :=
  ⟨by decide, by decide, by decide⟩

/-- Claim C8 (amended): category normalization maps a missing value to absent
and any text to its trimmed lower-cased form — an empty or whitespace-only
string yields the empty token rather than absent; the same function builds the
product `category_norm` column, and downstream the matcher's truthiness test
makes the empty token behave exactly like a missing preference. -/
theorem norm_category_amended :
    norm_category none = none ∧
    (∀ s : String, norm_category (some s) = some (pyLower (pyStrip s))) ∧
    (∀ p : Product, (normalizeRow p).category_norm = norm_category p.category) ∧
    (∀ (ps : List NProduct) (n : Nat) (c : Customer),
      recsFor ps n { c with preferred_category := some "" } =
        recsFor ps n { c with preferred_category := none }) := by
  refine ⟨rfl, fun s => rfl, fun p => rfl, fun ps n c => ?_⟩
  have h0 : norm_category (some "") = some "" := by decide
  have e1 : candAfterPref ps { c with preferred_category := some "" } = ps := by
    simp [candAfterPref, h0]
  have e2 : candAfterPref ps { c with preferred_category := none } = ps := rfl
  simp [recsFor, finalCandidates, e1, e2]

/-- Claim C9: in the state-threading form of the call, both caller-owned
tables come back unchanged, and the returned rows are exactly the pure
function of the input values — the source's line-7 copy receives every write,
and the customer rows are only read. -/
theorem match_run_frame (st : MatcherState) (n : Nat) :
    (match_run st n).2 = st ∧
      (match_run st n).1 = match_products_to_customers st.products_df st.customers_df n :=
  ⟨rfl, rfl⟩

/-- Claim C10: every emitted recommendation is the projection of a catalogue
row, with `category` taken from the raw catalogue value (case and whitespace
preserved) and `price` taken from the normalized numeric column. -/
theorem rec_fields_raw_category_normalized_price
    (products : List Product) (customers : List Customer) (n : Nat)
    (row : MatchResult) (r : Recommendation)
    (hrow : row ∈ match_products_to_customers products customers n)
    (hr : r ∈ row.recommendations) :
    ∃ p, p ∈ products ∧ r.name = p.name ∧ r.category = p.category ∧
      r.price = pd_to_numeric p.price ∧ r.sku = p.sku ∧ r.url = p.url := by
  obtain ⟨c, hc, rfl⟩ := match_row_mem.mp hrow
  simp only [recsFor] at hr
  obtain ⟨np, hnp, rfl⟩ := List.mem_map.mp hr
  have h1 : np ∈ finalCandidates (sortByPrice (products.map normalizeRow)) c :=
    List.take_subset _ _ hnp
  have h2 := mem_candAfterPref (mem_finalCandidates h1)
  have h3 : np ∈ products.map normalizeRow := mem_sortByPrice.mp h2
  obtain ⟨p, hp, rfl⟩ := List.mem_map.mp h3
  exact ⟨p, hp, rfl, rfl, rfl, rfl, rfl⟩

/-- Witness for the C10 projection theorem: a product with raw category
listed as " KITCHEN " and textual price "12.50" is emitted with the raw
category text and the parsed numeric price. -/
theorem rec_fields_raw_category_normalized_price_witness :
    ∃ p, p ∈ ([prodThing] : List Product) ∧
      ("Thing" : String) = p.name ∧ (some " KITCHEN " : Option String) = p.category ∧
      (some (mkRat 25 2) : Option ℚ) = pd_to_numeric p.price ∧
      (some "SKU1" : Option String) = p.sku ∧ (some "https://x" : Option String) = p.url :=
  rec_fields_raw_category_normalized_price [prodThing] [custCal] 1
    ⟨custCal, [⟨"Thing", some " KITCHEN ", some (mkRat 25 2), some "SKU1", some "https://x"⟩]⟩
    ⟨"Thing", some " KITCHEN ", some (mkRat 25 2), some "SKU1", some "https://x"⟩
    (by decide) (by decide)
